import Mathlib

/-!
Shallow embedding of the binary decoding core of the OpenKH MDLX importer
(`blender_addons/mdlx_importer.py`): the BAR archive reader (`BarFile`),
the model header and bone-table decoder (`MdlxModel`), and the decode
pipeline (`MdlxFile.pipeline`).

Byte buffers are `List Nat`, one byte per element.  Python's catchable
exceptions raised while decoding (`struct.error` on a short buffer,
`UnicodeDecodeError` on a non-ASCII name, `ValueError` on a missing model
entry) are modelled as `Except FormatError` error values:
`struct.error ↦ truncated`, `UnicodeDecodeError ↦ invalidEncoding`,
`ValueError("No model data in MDLX") ↦ emptyModel`.
-/

/-- Python slice `l[a:b]` for nonnegative `a`, `b`: the elements at indices
`a ≤ i < b`, clamped to the list bounds (slicing never raises). -/
def pyslice (l : List Nat) (a b : Nat) : List Nat :=
  (l.drop a).take (b - a)

/-- Little-endian unsigned value of a byte string, as `struct.unpack`
computes it for the formats `<H` and `<I`. -/
def leVal : List Nat → Nat
  | [] => 0
  | b :: bs => b + 256 * leVal bs

/-- Two's-complement reading of a 32-bit pattern, as `struct.unpack('<i', _)`
produces it. -/
def s32 (v : Nat) : Int :=
  if v < 2 ^ 31 then (v : Int) else (v : Int) - 2 ^ 32

/-- Value denoted by an IEEE-754 binary32 bit pattern, as an exact rational
(`none` for the infinity/NaN exponent).  The decoder only transports bit
patterns, so this is the interpretation used to state claims about float
fields; pattern `0` denotes `0.0`. -/
def f32val (bits : Nat) : Option ℚ :=
  let sign : Nat := bits / 2 ^ 31 % 2
  let expo : Nat := bits / 2 ^ 23 % 2 ^ 8
  let frac : Nat := bits % 2 ^ 23
  if expo = 255 then none
  else
    let mag : ℚ :=
      if expo = 0 then (frac : ℚ) * (2 : ℚ) ^ (-(149 : ℤ))
      else ((2 ^ 23 + frac : ℕ) : ℚ) * (2 : ℚ) ^ ((expo : ℤ) - 150)
    some (if sign = 1 then -mag else mag)

/-- Python `bytes.rstrip('\x00')`: drop trailing zero bytes. -/
def rstripZeros (l : List Nat) : List Nat :=
  (l.reverse.dropWhile (fun b => b == 0)).reverse

/-- Error taxonomy of the decoding core (section 7 of the spec). -/
inductive FormatError where
  | truncated
  | invalidEncoding
  | emptyModel
deriving DecidableEq

/-- One record of the BAR table of contents (`class BarEntry`).  The `name`
field holds the ASCII-decoded, NUL-stripped name bytes. -/
structure BarEntry where
  type : Nat
  duplicate : Nat
  name : List Nat
  offset : Nat
  size : Nat
deriving DecidableEq

/-- Parsed BAR archive (`class BarFile`): the entry table and the original
buffer (`self.data = data`). -/
structure BarFile where
  entries : List BarEntry
  data : List Nat
deriving DecidableEq

/-- Entry-table loop of `BarFile.__init__` (lines 52-56): starting at byte
position `pos`, read the given number of 16-byte records.  Each iteration
unpacks `<HH>` at `pos` (needs `pos + 4` bytes), slices 4 name bytes
(clamped, so never short), ASCII-decodes them (fails on a byte ≥ 128),
strips trailing NULs, then unpacks `<II>` at `pos + 8` (needs `pos + 16`
bytes). -/
def parseEntries (data : List Nat) : Nat → Nat → Except FormatError (List BarEntry)
  | _, 0 => Except.ok []
  | pos, Nat.succ n =>
    if pos + 4 ≤ data.length then
      let etype := leVal (pyslice data pos (pos + 2))
      let dup := leVal (pyslice data (pos + 2) (pos + 4))
      let raw := pyslice data (pos + 4) (pos + 8)
      if raw.all (fun b => b < 128) then
        if pos + 16 ≤ data.length then
          let off := leVal (pyslice data (pos + 8) (pos + 12))
          let size := leVal (pyslice data (pos + 12) (pos + 16))
          match parseEntries data (pos + 16) n with
          | Except.ok rest =>
              Except.ok (BarEntry.mk etype dup (rstripZeros raw) off size :: rest)
          | Except.error e => Except.error e
        else Except.error FormatError.truncated
      else Except.error FormatError.invalidEncoding
    else Except.error FormatError.truncated

/-- Embedding of `BarFile.__init__` (lines 45-57): the 4 magic bytes are a
clamped slice and are not inspected; the entry count is unpacked as `<I` at
byte 4 (needs 8 bytes); 8 reserved bytes are skipped; the entry table starts
at byte 16. -/
def BarFile.parse (data : List Nat) : Except FormatError BarFile :=
  if 8 ≤ data.length then
    let count := leVal (pyslice data 4 8)
    match parseEntries data 16 count with
    | Except.ok es => Except.ok (BarFile.mk es data)
    | Except.error e => Except.error e
  else Except.error FormatError.truncated

/-- Embedding of `BarFile.entry` (lines 59-63): the slice
`self.data[e.offset:e.offset+e.size]` of the first entry whose `type`
matches, else `None`. -/
def BarFile.entry (bar : BarFile) (etype : Nat) : Option (List Nat) :=
  match bar.entries.find? (fun e => e.type == etype) with
  | some e => some (pyslice bar.data e.offset (e.offset + e.size))
  | none => none

/-- Four 32-bit fields as raw bit patterns (one `<ffff` group of a bone
record); interpret each component with `f32val`. -/
structure Vec4 where
  x : Nat
  y : Nat
  z : Nat
  w : Nat
deriving DecidableEq

/-- One decoded joint (`class MdlxModel.Bone`).  `index` is the in-file
u16 at record offset 0, `parent` the in-file i32 at record offset 4; the
three vectors hold the raw f32 bit patterns at offsets 16, 32 and 48. -/
structure Bone where
  index : Nat
  parent : Int
  scale : Vec4
  rot : Vec4
  trans : Vec4
deriving DecidableEq

/-- Embedding of `MdlxModel.Bone.__init__` (lines 70-77) on the record
bytes handed to `io.BytesIO`.  The stream reads are sequential; `f.read(n)`
returns at most `n` bytes and each `struct.unpack` raises (truncated) when
its read came back short, while the two skip reads never raise.  The last
unpacked field ends at byte 64, so the whole record decodes exactly when
64 bytes are available, and every shorter record raises `struct.error`. -/
def Bone.decode (b : List Nat) : Except FormatError Bone :=
  if 64 ≤ b.length then
    Except.ok
      { index := leVal (pyslice b 0 2)
        parent := s32 (leVal (pyslice b 4 8))
        scale := Vec4.mk (leVal (pyslice b 16 20)) (leVal (pyslice b 20 24))
          (leVal (pyslice b 24 28)) (leVal (pyslice b 28 32))
        rot := Vec4.mk (leVal (pyslice b 32 36)) (leVal (pyslice b 36 40))
          (leVal (pyslice b 40 44)) (leVal (pyslice b 44 48))
        trans := Vec4.mk (leVal (pyslice b 48 52)) (leVal (pyslice b 52 56))
          (leVal (pyslice b 56 60)) (leVal (pyslice b 60 64)) }
  else Except.error FormatError.truncated

/-- The bone a 64-byte record starting at absolute offset `p` of `data`
decodes to (closed form of `Bone.decode` on the record slice). -/
def boneOfRecord (data : List Nat) (p : Nat) : Bone :=
  { index := leVal (pyslice data p (p + 2))
    parent := s32 (leVal (pyslice data (p + 4) (p + 8)))
    scale := Vec4.mk (leVal (pyslice data (p + 16) (p + 20)))
      (leVal (pyslice data (p + 20) (p + 24)))
      (leVal (pyslice data (p + 24) (p + 28)))
      (leVal (pyslice data (p + 28) (p + 32)))
    rot := Vec4.mk (leVal (pyslice data (p + 32) (p + 36)))
      (leVal (pyslice data (p + 36) (p + 40)))
      (leVal (pyslice data (p + 40) (p + 44)))
      (leVal (pyslice data (p + 44) (p + 48)))
    trans := Vec4.mk (leVal (pyslice data (p + 48) (p + 52)))
      (leVal (pyslice data (p + 52) (p + 56)))
      (leVal (pyslice data (p + 56) (p + 60)))
      (leVal (pyslice data (p + 60) (p + 64))) }

/-- Header fields read by `MdlxModel.__init__` (lines 82-92).  They are
locals of the source constructor; only `boneCount` and `boneOffset` feed
the bone loop. -/
structure MdlxHeader where
  version : Nat
  nextHeaderOffset : Nat
  boneCount : Nat
  boneOffset : Nat
  unknownOffset : Nat
  subpartCount : Nat
deriving DecidableEq

/-- Embedding of the header reads of `MdlxModel.__init__` (lines 82-92):
sequential `struct.unpack_from` calls at byte positions 0x90 (`<I`),
0x9C (`<I`), 0xA0 (`<H`), 0xA4 (`<I`), 0xA8 (`<I`) and 0xAC (`<H`), with
reserved bytes skipped in between.  Each raises `struct.error` when the
buffer is short; the last read ends at byte 0xAE = 174, so one bound
captures every raise. -/
def MdlxModel.readHeader (data : List Nat) : Except FormatError MdlxHeader :=
  if 174 ≤ data.length then
    Except.ok
      { version := leVal (pyslice data 0x90 0x94)
        nextHeaderOffset := leVal (pyslice data 0x9C 0xA0)
        boneCount := leVal (pyslice data 0xA0 0xA2)
        boneOffset := leVal (pyslice data 0xA4 0xA8)
        unknownOffset := leVal (pyslice data 0xA8 0xAC)
        subpartCount := leVal (pyslice data 0xAC 0xAE) }
  else Except.error FormatError.truncated

/-- Decoded model (`class MdlxModel`): the bone list.  The source also sets
`self.meshes = []`; mesh parsing is omitted in the source itself. -/
structure MdlxModel where
  bones : List Bone
deriving DecidableEq

/-- Bone loop of `MdlxModel.__init__` (lines 95-100): for each of the given
number of records, slice 64 bytes at the cursor (clamped, possibly short)
and decode them as a bone, advancing the cursor by 64. -/
def MdlxModel.decodeBones (data : List Nat) : Nat → Nat → Except FormatError (List Bone)
  | _, 0 => Except.ok []
  | p, Nat.succ n =>
    match Bone.decode (pyslice data p (p + 0x40)) with
    | Except.ok b =>
        match MdlxModel.decodeBones data (p + 0x40) n with
        | Except.ok bs => Except.ok (b :: bs)
        | Except.error e => Except.error e
    | Except.error e => Except.error e

/-- Embedding of `MdlxModel.__init__` (lines 79-103): read the header, then
decode `boneCount` records of 64 bytes starting at `boneOffset`. -/
def MdlxModel.decode (data : List Nat) : Except FormatError MdlxModel :=
  match MdlxModel.readHeader data with
  | Except.ok h =>
      match MdlxModel.decodeBones data h.boneOffset h.boneCount with
      | Except.ok bs => Except.ok (MdlxModel.mk bs)
      | Except.error e => Except.error e
  | Except.error e => Except.error e

/-- Embedding of `MdlxFile.__init__` (lines 105-115) after the file read:
parse the archive, look up entry kind 4, and decode the model; Python's
`if model_data:` is falsy both for `None` and for an empty slice, and then
`ValueError("No model data in MDLX")` is raised. -/
def MdlxFile.pipeline (data : List Nat) : Except FormatError MdlxModel :=
  match BarFile.parse data with
  | Except.ok bar =>
      match bar.entry 4 with
      | some md =>
          if md.length = 0 then Except.error FormatError.emptyModel
          else MdlxModel.decode md
      | none => Except.error FormatError.emptyModel
  | Except.error e => Except.error e

/-! ### Helper lemmas about slices -/

theorem length_pyslice (l : List Nat) (a b : Nat) :
    (pyslice l a b).length = min (b - a) (l.length - a) := by
  simp [pyslice]

theorem pyslice_pyslice (l : List Nat) (p q a c : Nat) (h : c ≤ q - p) :
    pyslice (pyslice l p q) a c = pyslice l (p + a) (p + c) := by
  unfold pyslice
  rw [List.drop_take, List.drop_drop, List.take_take]
  have h1 : min (c - a) (q - p - a) = c - a := Nat.min_eq_left (Nat.sub_le_sub_right h a)
  have h2 : p + c - (p + a) = c - a := by omega
  rw [h1, h2]

theorem pyslice_eq_range_map (l : List Nat) (a b : Nat) :
    pyslice l a b =
      (List.range (min (b - a) (l.length - a))).map (fun j => l.getD (a + j) 0) := by
  apply List.ext_getElem?
  intro n
  rw [List.getElem?_map]
  by_cases hn : n < min (b - a) (l.length - a)
  · have hba : n < b - a := by omega
    have hl : a + n < l.length := by omega
    rw [List.getElem?_range hn]
    unfold pyslice
    rw [List.getElem?_take_of_lt hba, List.getElem?_drop]
    rw [List.getElem?_eq_getElem hl]
    simp [List.getD_eq_getElem?_getD, List.getElem?_eq_getElem hl]
  · have hr : (List.range (min (b - a) (l.length - a)))[n]? = none :=
      List.getElem?_eq_none (by simp only [List.length_range]; omega)
    rw [hr]
    have hl : (pyslice l a b)[n]? = none := by
      unfold pyslice
      by_cases hba : n < b - a
      · rw [List.getElem?_take_of_lt hba, List.getElem?_drop]
        exact List.getElem?_eq_none (by omega)
      · exact List.getElem?_eq_none (by rw [List.length_take, List.length_drop]; omega)
    rw [hl]
    rfl

/-! ### First-match characterization of List.find? -/

theorem find?_first {α : Type} (p : α → Bool) :
    ∀ (l : List α) (i : Nat) (e : α), l.get? i = some e → p e = true →
      (∀ j, j < i → ∀ x, l.get? j = some x → p x = false) →
      l.find? p = some e
  | [], i, e, hi, _, _ => by simp at hi
  | a :: l, 0, e, hi, he, _ => by
      simp only [List.get?] at hi
      cases hi
      exact List.find?_cons_of_pos l he
  | a :: l, Nat.succ i, e, hi, he, hfirst => by
      have ha : p a = false := hfirst 0 (Nat.succ_pos i) a rfl
      rw [List.find?_cons_of_neg l (by simp [ha])]
      exact find?_first p l i e hi he (fun j hj x hx => hfirst (j + 1) (by omega) x hx)

/-! ### Bone record decoding lemmas -/

theorem Bone.decode_short (b : List Nat) (h : b.length < 64) :
    Bone.decode b = Except.error FormatError.truncated := by
  unfold Bone.decode
  rw [if_neg (by omega)]

theorem Bone.decode_record (data : List Nat) (p : Nat) (h : p + 64 ≤ data.length) :
    Bone.decode (pyslice data p (p + 64)) = Except.ok (boneOfRecord data p) := by
  have hlen : (pyslice data p (p + 64)).length = 64 := by
    rw [length_pyslice]; omega
  unfold Bone.decode
  rw [if_pos (by omega)]
  unfold boneOfRecord
  rw [pyslice_pyslice data p (p + 64) 0 2 (by omega),
    pyslice_pyslice data p (p + 64) 4 8 (by omega),
    pyslice_pyslice data p (p + 64) 16 20 (by omega),
    pyslice_pyslice data p (p + 64) 20 24 (by omega),
    pyslice_pyslice data p (p + 64) 24 28 (by omega),
    pyslice_pyslice data p (p + 64) 28 32 (by omega),
    pyslice_pyslice data p (p + 64) 32 36 (by omega),
    pyslice_pyslice data p (p + 64) 36 40 (by omega),
    pyslice_pyslice data p (p + 64) 40 44 (by omega),
    pyslice_pyslice data p (p + 64) 44 48 (by omega),
    pyslice_pyslice data p (p + 64) 48 52 (by omega),
    pyslice_pyslice data p (p + 64) 52 56 (by omega),
    pyslice_pyslice data p (p + 64) 56 60 (by omega),
    pyslice_pyslice data p (p + 64) 60 64 (by omega)]
  norm_num

/-! ### Bone table decoding lemmas -/

theorem decodeBones_ok (data : List Nat) :
    ∀ (n p : Nat), p + n * 64 ≤ data.length →
      MdlxModel.decodeBones data p n =
        Except.ok ((List.range' p n 64).map (boneOfRecord data))
  | 0, p, _ => by simp [MdlxModel.decodeBones]
  | Nat.succ n, p, h => by
      have h1 : p + 64 ≤ data.length := by omega
      have hrec := decodeBones_ok data n (p + 64) (by omega)
      unfold MdlxModel.decodeBones
      rw [Bone.decode_record data p h1, hrec, List.range'_succ]
      rfl

theorem decodeBones_over (data : List Nat) :
    ∀ (n p : Nat), 1 ≤ n → data.length < p + n * 64 →
      MdlxModel.decodeBones data p n = Except.error FormatError.truncated
  | 0, _, h1, _ => by omega
  | Nat.succ n, p, _, h => by
      unfold MdlxModel.decodeBones
      by_cases hp : p + 64 ≤ data.length
      · have hn : 1 ≤ n := by omega
        rw [Bone.decode_record data p hp,
          decodeBones_over data n (p + 64) hn (by omega)]
      · rw [Bone.decode_short _ (by rw [length_pyslice]; omega)]

/-! ### Error taxonomy lemmas -/

theorem parseEntries_error (data : List Nat) :
    ∀ (n pos : Nat) (e : FormatError),
      parseEntries data pos n = Except.error e →
      e = FormatError.truncated ∨ e = FormatError.invalidEncoding
  | 0, pos, e, h => by simp [parseEntries] at h
  | Nat.succ n, pos, e, h => by
      unfold parseEntries at h
      by_cases h1 : pos + 4 ≤ data.length
      · rw [if_pos h1] at h
        by_cases h2 : (pyslice data (pos + 4) (pos + 8)).all (fun b => b < 128) = true
        · rw [if_pos h2] at h
          by_cases h3 : pos + 16 ≤ data.length
          · rw [if_pos h3] at h
            cases hrec : parseEntries data (pos + 16) n with
            | ok rest => rw [hrec] at h; cases h
            | error e2 =>
                rw [hrec] at h
                cases h
                exact parseEntries_error data n (pos + 16) _ hrec
          · rw [if_neg h3] at h
            cases h
            left
            rfl
        · rw [if_neg h2] at h
          cases h
          right
          rfl
      · rw [if_neg h1] at h
        cases h
        left
        rfl

theorem parse_error (data : List Nat) (e : FormatError)
    (h : BarFile.parse data = Except.error e) :
    e = FormatError.truncated ∨ e = FormatError.invalidEncoding := by
  unfold BarFile.parse at h
  by_cases h1 : 8 ≤ data.length
  · rw [if_pos h1] at h
    dsimp only at h
    cases hrec : parseEntries data 16 (leVal (pyslice data 4 8)) with
    | ok es => rw [hrec] at h; cases h
    | error e2 =>
        rw [hrec] at h
        cases h
        exact parseEntries_error data _ 16 _ hrec
  · rw [if_neg h1] at h
    cases h
    left
    rfl

theorem decodeBones_error (data : List Nat) :
    ∀ (n p : Nat) (e : FormatError),
      MdlxModel.decodeBones data p n = Except.error e →
      e = FormatError.truncated
  | 0, p, e, h => by simp [MdlxModel.decodeBones] at h
  | Nat.succ n, p, e, h => by
      unfold MdlxModel.decodeBones at h
      cases hb : Bone.decode (pyslice data p (p + 0x40)) with
      | ok b =>
          rw [hb] at h
          cases hrec : MdlxModel.decodeBones data (p + 0x40) n with
          | ok bs => rw [hrec] at h; cases h
          | error e2 =>
              rw [hrec] at h
              cases h
              exact decodeBones_error data n (p + 0x40) _ hrec
      | error e2 =>
          rw [hb] at h
          cases h
          revert hb
          unfold Bone.decode
          by_cases hl : 64 ≤ (pyslice data p (p + 0x40)).length
          · rw [if_pos hl]
            intro hb
            cases hb
          · rw [if_neg hl]
            intro hb
            cases hb
            rfl

theorem decode_error (data : List Nat) (e : FormatError)
    (h : MdlxModel.decode data = Except.error e) :
    e = FormatError.truncated := by
  unfold MdlxModel.decode at h
  cases hh : MdlxModel.readHeader data with
  | ok hd =>
      rw [hh] at h
      dsimp only at h
      cases hrec : MdlxModel.decodeBones data hd.boneOffset hd.boneCount with
      | ok bs => rw [hrec] at h; cases h
      | error e2 =>
          rw [hrec] at h
          cases h
          exact decodeBones_error data _ _ _ hrec
  | error e2 =>
      rw [hh] at h
      cases h
      revert hh
      unfold MdlxModel.readHeader
      by_cases hl : 174 ≤ data.length
      · rw [if_pos hl]
        intro hh
        cases hh
      · rw [if_neg hl]
        intro hh
        cases hh
        rfl

/-! ### Success-path characterizations -/

theorem parse_keeps_data (data : List Nat) (bar : BarFile)
    (h : BarFile.parse data = Except.ok bar) : bar.data = data := by
  unfold BarFile.parse at h
  by_cases h1 : 8 ≤ data.length
  · rw [if_pos h1] at h
    dsimp only at h
    cases hrec : parseEntries data 16 (leVal (pyslice data 4 8)) with
    | ok es => rw [hrec] at h; cases h; rfl
    | error e => rw [hrec] at h; cases h
  · rw [if_neg h1] at h
    cases h

theorem decode_ok (data : List Nat) (hd : MdlxHeader)
    (hh : MdlxModel.readHeader data = Except.ok hd)
    (hb : hd.boneOffset + hd.boneCount * 64 ≤ data.length) :
    MdlxModel.decode data =
      Except.ok (MdlxModel.mk
        ((List.range' hd.boneOffset hd.boneCount 64).map (boneOfRecord data))) := by
  unfold MdlxModel.decode
  rw [hh]
  dsimp only
  rw [decodeBones_ok data hd.boneCount hd.boneOffset (by omega)]

theorem readHeader_fields (data : List Nat) (h : 174 ≤ data.length) :
    MdlxModel.readHeader data =
      Except.ok
        { version := leVal (pyslice data 0x90 0x94)
          nextHeaderOffset := leVal (pyslice data 0x9C 0xA0)
          boneCount := leVal (pyslice data 0xA0 0xA2)
          boneOffset := leVal (pyslice data 0xA4 0xA8)
          unknownOffset := leVal (pyslice data 0xA8 0xAC)
          subpartCount := leVal (pyslice data 0xAC 0xAE) } := by
  unfold MdlxModel.readHeader
  rw [if_pos h]

theorem f32val_zero : f32val 0 = some 0 := by
  simp [f32val]

/-! ### Concrete inputs used by the claims -/

deriving instance DecidableEq for Except

set_option maxRecDepth 16000

/-- Minimal hand-constructed MDLX archive of the round-trip scenario:
16-byte BAR header (magic `BAR\x00`, count 1), one entry
(kind 4, dup 0, name `MODL`, offset 32, size 236), then a 236-byte model
blob: 0x90 zero bytes, the header (`bone_count = 1`,
`bone_table_offset = 0xAC`), and one 64-byte zeroed bone record. -/
def c1buf : List Nat :=
  [66, 65, 82, 0, 1, 0, 0, 0] ++ List.replicate 8 0 ++
  [4, 0, 0, 0, 77, 79, 68, 76, 32, 0, 0, 0, 236, 0, 0, 0] ++
  List.replicate 144 0 ++
  ([0, 0, 0, 0] ++ List.replicate 8 0 ++ [0, 0, 0, 0] ++ [1, 0, 0, 0] ++
   [172, 0, 0, 0] ++ [0, 0, 0, 0]) ++
  List.replicate 64 0

/-- The single all-zero bone the minimal archive decodes to. -/
def zeroBone : Bone :=
  Bone.mk 0 0 (Vec4.mk 0 0 0 0) (Vec4.mk 0 0 0 0) (Vec4.mk 0 0 0 0)

/-- C1: parsing the minimal hand-constructed archive, looking up the entry
of kind 4 and decoding it as a model yields a skeleton with exactly one
bone whose parent is 0 and whose scale, rotation and translation
components all denote the float value 0.0. -/
theorem c1_minimal_roundtrip :
    MdlxFile.pipeline c1buf = Except.ok (MdlxModel.mk [zeroBone]) ∧
    (MdlxModel.mk [zeroBone]).bones.length = 1 ∧
    zeroBone.parent = 0 ∧
    f32val zeroBone.scale.x = some 0 ∧ f32val zeroBone.scale.y = some 0 ∧
    f32val zeroBone.scale.z = some 0 ∧ f32val zeroBone.scale.w = some 0 ∧
    f32val zeroBone.rot.x = some 0 ∧ f32val zeroBone.rot.y = some 0 ∧
    f32val zeroBone.rot.z = some 0 ∧ f32val zeroBone.rot.w = some 0 ∧
    f32val zeroBone.trans.x = some 0 ∧ f32val zeroBone.trans.y = some 0 ∧
    f32val zeroBone.trans.z = some 0 ∧ f32val zeroBone.trans.w = some 0 :=
  ⟨by decide, by decide, by decide,
    f32val_zero, f32val_zero, f32val_zero, f32val_zero,
    f32val_zero, f32val_zero, f32val_zero, f32val_zero,
    f32val_zero, f32val_zero, f32val_zero, f32val_zero⟩

/-- C4: on every input buffer, each decode entry point returns a value:
either a success or one of the error values of the taxonomy
(`truncated` or `invalidEncoding` for the archive parser, `truncated`
for the model decoder, any of the three for the pipeline); the embedding
is total, so no input escapes these outcomes. -/
theorem c4_errors_returned_as_values (data : List Nat) :
    ((∃ bar, BarFile.parse data = Except.ok bar) ∨
      BarFile.parse data = Except.error FormatError.truncated ∨
      BarFile.parse data = Except.error FormatError.invalidEncoding) ∧
    ((∃ m, MdlxModel.decode data = Except.ok m) ∨
      MdlxModel.decode data = Except.error FormatError.truncated) ∧
    ((∃ m, MdlxFile.pipeline data = Except.ok m) ∨
      MdlxFile.pipeline data = Except.error FormatError.truncated ∨
      MdlxFile.pipeline data = Except.error FormatError.invalidEncoding ∨
      MdlxFile.pipeline data = Except.error FormatError.emptyModel) := by
  refine ⟨?_, ?_, ?_⟩
  · cases hp : BarFile.parse data with
    | ok bar => exact Or.inl ⟨bar, rfl⟩
    | error e =>
        rcases parse_error data e hp with h | h
        · subst h
          exact Or.inr (Or.inl rfl)
        · subst h
          exact Or.inr (Or.inr rfl)
  · cases hp : MdlxModel.decode data with
    | ok m => exact Or.inl ⟨m, rfl⟩
    | error e =>
        have h := decode_error data e hp
        subst h
        exact Or.inr rfl
  · cases hp : MdlxFile.pipeline data with
    | ok m => exact Or.inl ⟨m, rfl⟩
    | error e =>
        cases e with
        | truncated => exact Or.inr (Or.inl rfl)
        | invalidEncoding => exact Or.inr (Or.inr (Or.inl rfl))
        | emptyModel => exact Or.inr (Or.inr (Or.inr rfl))

/-- Eight-byte all-zero buffer: the smallest archive the parser accepts
(entry count 0, empty entry table). -/
def data8 : List Nat := List.replicate 8 0

/-- C8: archive parsing and model decoding are deterministic pure
functions: equal buffers give equal parse, decode and pipeline results,
and the parsed archive stores the input buffer unchanged. -/
theorem c8_deterministic_pure (d1 d2 : List Nat) (h : d1 = d2) :
    BarFile.parse d1 = BarFile.parse d2 ∧
    MdlxModel.decode d1 = MdlxModel.decode d2 ∧
    MdlxFile.pipeline d1 = MdlxFile.pipeline d2 ∧
    (BarFile.parse d1).toOption.map BarFile.data =
      (BarFile.parse d1).toOption.map (fun _ => d1) := by
  subst h
  refine ⟨rfl, rfl, rfl, ?_⟩
  cases hp : BarFile.parse d1 with
  | ok bar => simp [Except.toOption, parse_keeps_data d1 bar hp]
  | error e => rfl

/-- C8 witness: the purity statement instantiated at the smallest accepted
buffer. -/
theorem c8_deterministic_pure_witness :
    BarFile.parse data8 = BarFile.parse data8 ∧
    MdlxModel.decode data8 = MdlxModel.decode data8 ∧
    MdlxFile.pipeline data8 = MdlxFile.pipeline data8 ∧
    (BarFile.parse data8).toOption.map BarFile.data =
      (BarFile.parse data8).toOption.map (fun _ => data8) :=
  c8_deterministic_pure data8 data8 rfl

/-! ### Archive lookup: first-match characterization -/

theorem entry_first_match (bar : BarFile) (k i : Nat) (e : BarEntry)
    (hi : bar.entries.get? i = some e) (hk : e.type = k)
    (hfirst : ∀ j, j < i → ∀ x, bar.entries.get? j = some x → x.type ≠ k) :
    bar.entry k = some (pyslice bar.data e.offset (e.offset + e.size)) := by
  unfold BarFile.entry
  have hp : (fun x => x.type == k) e = true := by simp [hk]
  have hf : ∀ j, j < i → ∀ x, bar.entries.get? j = some x →
      (fun y => y.type == k) x = false := by
    intro j hj x hx
    simp only [beq_eq_false_iff_ne, ne_eq]
    exact hfirst j hj x hx
  rw [find?_first (fun x => x.type == k) bar.entries i e hi hp hf]

/-- Three-entry archive used to exercise the lookup: the second entry is
the first one of kind 4, a third kind-4 entry follows it. -/
def w2bar : BarFile :=
  BarFile.mk
    [BarEntry.mk 7 0 [] 0 2, BarEntry.mk 4 0 [] 1 2, BarEntry.mk 4 1 [] 0 1]
    [10, 20, 30]

/-- C2: in an archive whose entries all lie inside the buffer, lookup by
kind returns exactly the byte range `[offset, offset+size)` of the first
entry of that kind (any number of non-matching entries before it and
matching entries after it notwithstanding), and returns nothing when no
entry has the requested kind. -/
theorem c2_lookup_first_kind (bar : BarFile) (k : Nat)
    (hinv : ∀ x ∈ bar.entries, x.offset + x.size ≤ bar.data.length) :
    (∀ i e, bar.entries.get? i = some e → e.type = k →
        (∀ j, j < i → ∀ x, bar.entries.get? j = some x → x.type ≠ k) →
        bar.entry k =
          some ((List.range e.size).map (fun j => bar.data.getD (e.offset + j) 0))) ∧
    ((∀ x ∈ bar.entries, x.type ≠ k) → bar.entry k = none) := by
  constructor
  · intro i e hi hk hfirst
    have hb : e.offset + e.size ≤ bar.data.length := hinv e (List.get?_mem hi)
    have hmin : min (e.offset + e.size - e.offset) (bar.data.length - e.offset) =
        e.size := by omega
    rw [entry_first_match bar k i e hi hk hfirst, pyslice_eq_range_map, hmin]
  · intro hall
    unfold BarFile.entry
    rw [List.find?_eq_none.mpr ?_]
    intro x hx
    simp only [beq_iff_eq]
    exact hall x hx

/-- C2 witness: in the three-entry archive the kind-4 lookup returns the
bytes of the second entry, and a kind with no entry returns nothing. -/
theorem c2_lookup_first_kind_witness :
    w2bar.entry 4 =
      some ((List.range 2).map (fun j => w2bar.data.getD (1 + j) 0)) ∧
    w2bar.entry 9 = none := by
  constructor
  · exact (c2_lookup_first_kind w2bar 4 (by decide)).1 1 (BarEntry.mk 4 0 [] 1 2)
      rfl rfl (by
        intro j hj x hx
        have hj0 : j = 0 := by omega
        subst hj0
        cases hx
        decide)
  · exact (c2_lookup_first_kind w2bar 9 (by decide)).2 (by decide)

/-- Archive whose single kind-4 entry declares size 0 at an offset past the
buffer end. -/
def w9bar : BarFile := BarFile.mk [BarEntry.mk 4 0 [] 5 0] [1, 2, 3]

/-- C9 counterexample: for the archive whose first kind-4 entry has
`offset + size = 5 > 3 = buffer length` but declared size 0, the lookup
returns the empty clamped slice, whose length is not strictly shorter than
the declared size — refuting the claim that the clamped slice is always
shorter than the entry's declared size. -/
theorem c9_counterexample :
    w9bar.entries.get? 0 = some (BarEntry.mk 4 0 [] 5 0) ∧
    w9bar.data.length < 5 + 0 ∧
    w9bar.entry 4 = some [] ∧
    ¬ (([] : List Nat).length < (BarEntry.mk 4 0 [] 5 0).size) := by
  refine ⟨rfl, by decide, by decide, by decide⟩

/-- Archive whose single kind-4 entry overruns the buffer with a nonzero
declared size. -/
def w9bar2 : BarFile := BarFile.mk [BarEntry.mk 4 0 [] 2 5] [10, 20, 30]

/-- C9 (amended): when the first entry of the requested kind overruns the
buffer, the lookup silently returns the slice clamped to the buffer end —
`min size (length - offset)` bytes, strictly shorter than the declared
size whenever that size is nonzero — and never signals an error. -/
theorem c9_lookup_clamps (bar : BarFile) (k i : Nat) (e : BarEntry)
    (hi : bar.entries.get? i = some e) (hk : e.type = k)
    (hfirst : ∀ j, j < i → ∀ x, bar.entries.get? j = some x → x.type ≠ k)
    (hover : bar.data.length < e.offset + e.size) :
    bar.entry k =
      some ((List.range (min e.size (bar.data.length - e.offset))).map
        (fun j => bar.data.getD (e.offset + j) 0)) ∧
    (0 < e.size → min e.size (bar.data.length - e.offset) < e.size) := by
  constructor
  · have hmin : min (e.offset + e.size - e.offset) (bar.data.length - e.offset) =
        min e.size (bar.data.length - e.offset) := by omega
    rw [entry_first_match bar k i e hi hk hfirst, pyslice_eq_range_map, hmin]
  · intro hs
    omega

/-- C9 witness: the clamping statement instantiated at the overrunning
nonzero-size entry. -/
theorem c9_lookup_clamps_witness :
    w9bar2.entry 4 =
      some ((List.range (min 5 (w9bar2.data.length - 2))).map
        (fun j => w9bar2.data.getD (2 + j) 0)) ∧
    (0 < 5 → min 5 (w9bar2.data.length - 2) < 5) :=
  c9_lookup_clamps w9bar2 4 0 (BarEntry.mk 4 0 [] 2 5) rfl rfl
    (fun j hj _ _ => absurd hj (Nat.not_lt_zero j)) (by decide)

/-! ### Pipeline behaviour on an empty model entry -/

/-- C10: when the first kind-4 entry of a parsed archive has size 0, the
pipeline fails with the no-model-data error (the empty slice is falsy in
`if model_data:`), so the model decoder is never reached. -/
theorem c10_empty_model_entry (data : List Nat) (bar : BarFile) (i : Nat) (e : BarEntry)
    (hp : BarFile.parse data = Except.ok bar)
    (hi : bar.entries.get? i = some e) (hk : e.type = 4) (hs : e.size = 0)
    (hfirst : ∀ j, j < i → ∀ x, bar.entries.get? j = some x → x.type ≠ 4) :
    MdlxFile.pipeline data = Except.error FormatError.emptyModel := by
  unfold MdlxFile.pipeline
  rw [hp]
  dsimp only
  rw [entry_first_match bar 4 i e hi hk hfirst]
  dsimp only
  have hz : (pyslice bar.data e.offset (e.offset + e.size)).length = 0 := by
    rw [length_pyslice]
    omega
  rw [if_pos hz]

/-- Archive with a single kind-4 entry of size 0. -/
def c10buf : List Nat :=
  [0, 0, 0, 0, 1, 0, 0, 0] ++ List.replicate 8 0 ++
  [4, 0, 0, 0, 77, 79, 68, 76, 0, 0, 0, 0, 0, 0, 0, 0]

/-- C10 witness: the empty-entry statement instantiated at the concrete
size-0 archive. -/
theorem c10_empty_model_entry_witness :
    MdlxFile.pipeline c10buf = Except.error FormatError.emptyModel :=
  c10_empty_model_entry c10buf
    (BarFile.mk [BarEntry.mk 4 0 [77, 79, 68, 76] 0 0] c10buf) 0
    (BarEntry.mk 4 0 [77, 79, 68, 76] 0 0) (by decide) rfl rfl rfl
    (fun j hj _ _ => absurd hj (Nat.not_lt_zero j))

/-! ### Bone-table bounds (C3) -/

/-- Model blob of 174 bytes whose header declares `bone_count = 0` and
`bone_table_offset = 1000`, far past the end of the blob. -/
def c3zeroCountBlob : List Nat :=
  List.replicate 164 0 ++ [232, 3, 0, 0] ++ List.replicate 6 0

/-- C3 counterexample: a blob with `bone_table_offset + bone_count * 64 =
1000 > 174 = length` whose decode nevertheless succeeds (with no bones),
because a zero `bone_count` never touches the bone table — refuting the
claim that every such blob fails with `Truncated`. -/
theorem c3_counterexample :
    MdlxModel.readHeader c3zeroCountBlob = Except.ok (MdlxHeader.mk 0 0 0 1000 0 0) ∧
    c3zeroCountBlob.length < 1000 + 0 * 64 ∧
    MdlxModel.decode c3zeroCountBlob = Except.ok (MdlxModel.mk []) ∧
    MdlxModel.decode c3zeroCountBlob ≠ Except.error FormatError.truncated := by
  refine ⟨by decide, by decide, by decide, by decide⟩

/-- C3 (amended): for every model blob with a readable header, at least one
declared bone, and `bone_table_offset + bone_count * 64` exceeding the blob
length, decoding fails with the truncation error (and, the embedding being
total, performs no out-of-bounds access). -/
theorem c3_truncated_bone_table (data : List Nat) (hd : MdlxHeader)
    (hh : MdlxModel.readHeader data = Except.ok hd)
    (hc : 1 ≤ hd.boneCount)
    (hover : data.length < hd.boneOffset + hd.boneCount * 64) :
    MdlxModel.decode data = Except.error FormatError.truncated := by
  unfold MdlxModel.decode
  rw [hh]
  dsimp only
  rw [decodeBones_over data hd.boneCount hd.boneOffset hc hover]

/-- Model blob of 174 bytes whose header declares `bone_count = 100` on an
otherwise-valid but boneless blob. -/
def c3corruptBlob : List Nat :=
  List.replicate 160 0 ++ [100, 0] ++ List.replicate 12 0

/-- C3 witness: the truncation statement instantiated at the blob with
`bone_count` corrupted to 100. -/
theorem c3_truncated_bone_table_witness :
    MdlxModel.readHeader c3corruptBlob = Except.ok (MdlxHeader.mk 0 0 100 0 0 0) ∧
    (1 : Nat) ≤ 100 ∧
    c3corruptBlob.length < 0 + 100 * 64 ∧
    MdlxModel.decode c3corruptBlob = Except.error FormatError.truncated :=
  ⟨by decide, by decide, by decide,
    c3_truncated_bone_table c3corruptBlob (MdlxHeader.mk 0 0 100 0 0 0)
      (by decide) (by decide) (by decide)⟩

/-! ### Header field offsets (C5) -/

theorem decodeBones_length (data : List Nat) :
    ∀ (n p : Nat) (bs : List Bone),
      MdlxModel.decodeBones data p n = Except.ok bs → bs.length = n
  | 0, _, _, h => by cases h; rfl
  | Nat.succ n, p, bs, h => by
      unfold MdlxModel.decodeBones at h
      cases hb : Bone.decode (pyslice data p (p + 0x40)) with
      | ok b =>
          rw [hb] at h
          cases hrec : MdlxModel.decodeBones data (p + 0x40) n with
          | ok bs2 =>
              rw [hrec] at h
              cases h
              simp [decodeBones_length data n (p + 0x40) bs2 hrec]
          | error e => rw [hrec] at h; cases h
      | error e => rw [hb] at h; cases h

theorem decode_ok_bones_count (data : List Nat) (m : MdlxModel) (hd : MdlxHeader)
    (hh : MdlxModel.readHeader data = Except.ok hd)
    (hm : MdlxModel.decode data = Except.ok m) :
    m.bones.length = hd.boneCount := by
  unfold MdlxModel.decode at hm
  rw [hh] at hm
  dsimp only at hm
  cases hrec : MdlxModel.decodeBones data hd.boneOffset hd.boneCount with
  | ok bs =>
      rw [hrec] at hm
      cases hm
      exact decodeBones_length data _ _ bs hrec
  | error e => rw [hrec] at hm; cases hm

/-- Model blob of 174 bytes with pairwise distinct 32-bit values planted at
byte offsets 0x98 (value 1), 0x9C (value 2) and 0xA0 (value 3). -/
def c5blob : List Nat :=
  List.replicate 152 0 ++ [1, 0, 0, 0] ++ [2, 0, 0, 0] ++ [3, 0] ++
  List.replicate 12 0

/-- C5 counterexample: on the blob with distinct markers, the decoder
reads `next_header_offset = 2` (the bytes at 0x9C, not the value 1 at
0x98) and `bone_count = 3` (the bytes at 0xA0, not the value 2 at 0x9C) —
refuting the claimed offsets 0x98 and 0x9C. -/
theorem c5_counterexample :
    MdlxModel.readHeader c5blob = Except.ok (MdlxHeader.mk 0 2 3 0 0 0) ∧
    leVal (pyslice c5blob 0x98 0x9C) = 1 ∧
    leVal (pyslice c5blob 0x9C 0x9E) = 2 ∧
    (MdlxHeader.mk 0 2 3 0 0 0).nextHeaderOffset ≠ leVal (pyslice c5blob 0x98 0x9C) ∧
    (MdlxHeader.mk 0 2 3 0 0 0).boneCount ≠ leVal (pyslice c5blob 0x9C 0x9E) := by
  refine ⟨by decide, by decide, by decide, by decide, by decide⟩

/-- C5 (amended): within a model blob the decoder reads
`next_header_offset` as the 32-bit little-endian value at byte offset 0x9C
and `bone_count` as the 16-bit little-endian value at byte offset 0xA0;
whenever decoding succeeds, the skeleton has `leVal data[0xA0:0xA2]`
bones. -/
theorem c5_header_offsets (data : List Nat) (h : 174 ≤ data.length) :
    (∃ hd, MdlxModel.readHeader data = Except.ok hd ∧
      hd.nextHeaderOffset = leVal (pyslice data 0x9C 0xA0) ∧
      hd.boneCount = leVal (pyslice data 0xA0 0xA2)) ∧
    (∀ m, MdlxModel.decode data = Except.ok m →
      m.bones.length = leVal (pyslice data 0xA0 0xA2)) := by
  constructor
  · exact ⟨_, readHeader_fields data h, rfl, rfl⟩
  · intro m hm
    exact decode_ok_bones_count data m _ (readHeader_fields data h) hm

/-- Model blob of 238 bytes declaring one bone at table offset 174,
followed by one all-zero 64-byte record. -/
def c5okBlob : List Nat :=
  List.replicate 160 0 ++ [1, 0] ++ [0, 0] ++ [174, 0, 0, 0] ++
  List.replicate 6 0 ++ List.replicate 64 0

/-- C5 witness: the header-offset statement instantiated at the one-bone
blob, where decoding succeeds. -/
theorem c5_header_offsets_witness :
    (∃ hd, MdlxModel.readHeader c5okBlob = Except.ok hd ∧
      hd.nextHeaderOffset = leVal (pyslice c5okBlob 0x9C 0xA0) ∧
      hd.boneCount = leVal (pyslice c5okBlob 0xA0 0xA2)) ∧
    (∀ m, MdlxModel.decode c5okBlob = Except.ok m →
      m.bones.length = leVal (pyslice c5okBlob 0xA0 0xA2)) :=
  c5_header_offsets c5okBlob (by decide)

/-! ### Bone fields (C6, C7) -/

/-- Model blob of 238 bytes with one bone record whose in-file index field
holds 5. -/
def c6blob : List Nat :=
  List.replicate 160 0 ++ [1, 0] ++ [0, 0] ++ [174, 0, 0, 0] ++
  List.replicate 6 0 ++ ([5, 0] ++ List.replicate 62 0)

/-- C6 counterexample: the blob whose only record stores index 5 decodes to
a skeleton whose bone carries index 5 at position 0, so the decoded index
fields are not the 0-based positions — refuting the claim. -/
theorem c6_counterexample :
    MdlxModel.decode c6blob =
      Except.ok (MdlxModel.mk
        [Bone.mk 5 0 (Vec4.mk 0 0 0 0) (Vec4.mk 0 0 0 0) (Vec4.mk 0 0 0 0)]) ∧
    (MdlxModel.mk
        [Bone.mk 5 0 (Vec4.mk 0 0 0 0) (Vec4.mk 0 0 0 0) (Vec4.mk 0 0 0 0)]).bones.map
        Bone.index ≠
      List.range
        (MdlxModel.mk
          [Bone.mk 5 0 (Vec4.mk 0 0 0 0) (Vec4.mk 0 0 0 0) (Vec4.mk 0 0 0 0)]).bones.length := by
  refine ⟨by decide, by decide⟩

/-- C6 (amended): in every successfully decoded skeleton, each bone's
`index` field equals the 16-bit little-endian in-file index field at byte
offset 0 of its own 64-byte record — it is read from the record, not
assigned from the 0-based decode position. -/
theorem c6_index_from_record (data : List Nat) (hd : MdlxHeader)
    (hh : MdlxModel.readHeader data = Except.ok hd)
    (hb : hd.boneOffset + hd.boneCount * 64 ≤ data.length) :
    ∃ m, MdlxModel.decode data = Except.ok m ∧
      m.bones.length = hd.boneCount ∧
      ∀ i, i < hd.boneCount →
        m.bones.get? i = some (boneOfRecord data (hd.boneOffset + 64 * i)) ∧
        (boneOfRecord data (hd.boneOffset + 64 * i)).index =
          leVal (pyslice data (hd.boneOffset + 64 * i)
            (hd.boneOffset + 64 * i + 2)) := by
  refine ⟨_, decode_ok data hd hh hb, by simp, ?_⟩
  intro i hi
  constructor
  · rw [List.get?_eq_getElem?, List.getElem?_map,
      List.getElem?_range' hd.boneOffset 64 (by simpa using hi)]
    rfl
  · rfl

/-- C6 witness: the in-file-index statement instantiated at the blob whose
record stores index 5. -/
theorem c6_index_from_record_witness :
    ∃ m, MdlxModel.decode c6blob = Except.ok m ∧
      m.bones.length = 1 ∧
      ∀ i, i < 1 →
        m.bones.get? i = some (boneOfRecord c6blob (174 + 64 * i)) ∧
        (boneOfRecord c6blob (174 + 64 * i)).index =
          leVal (pyslice c6blob (174 + 64 * i) (174 + 64 * i + 2)) :=
  c6_index_from_record c6blob (MdlxHeader.mk 0 0 1 174 0 0) (by decide) (by decide)

/-- Model blob of 238 bytes with one bone record whose parent field holds
the signed value -1 (bytes FF FF FF FF). -/
def c7blob : List Nat :=
  List.replicate 160 0 ++ [1, 0] ++ [0, 0] ++ [174, 0, 0, 0] ++
  List.replicate 6 0 ++
  ([0, 0, 0, 0] ++ [255, 255, 255, 255] ++ List.replicate 56 0)

/-- C7: every well-formed bone table decodes without error whatever the
record contents, and each decoded bone's `parent` equals the signed 32-bit
little-endian value at byte offset 4 of its record, passed through with no
validation or resolution. -/
theorem c7_parent_verbatim (data : List Nat) (hd : MdlxHeader)
    (hh : MdlxModel.readHeader data = Except.ok hd)
    (hb : hd.boneOffset + hd.boneCount * 64 ≤ data.length) :
    ∃ m, MdlxModel.decode data = Except.ok m ∧
      m.bones.length = hd.boneCount ∧
      ∀ i, i < hd.boneCount →
        m.bones.get? i = some (boneOfRecord data (hd.boneOffset + 64 * i)) ∧
        (boneOfRecord data (hd.boneOffset + 64 * i)).parent =
          s32 (leVal (pyslice data (hd.boneOffset + 64 * i + 4)
            (hd.boneOffset + 64 * i + 8))) := by
  refine ⟨_, decode_ok data hd hh hb, by simp, ?_⟩
  intro i hi
  constructor
  · rw [List.get?_eq_getElem?, List.getElem?_map,
      List.getElem?_range' hd.boneOffset 64 (by simpa using hi)]
    rfl
  · rfl

/-- C7 witness: the verbatim-parent statement instantiated at the blob
whose record stores parent -1, together with the decoded value -1. -/
theorem c7_parent_verbatim_witness :
    (∃ m, MdlxModel.decode c7blob = Except.ok m ∧
      m.bones.length = 1 ∧
      ∀ i, i < 1 →
        m.bones.get? i = some (boneOfRecord c7blob (174 + 64 * i)) ∧
        (boneOfRecord c7blob (174 + 64 * i)).parent =
          s32 (leVal (pyslice c7blob (174 + 64 * i + 4) (174 + 64 * i + 8)))) ∧
    (boneOfRecord c7blob 174).parent = -1 :=
  ⟨c7_parent_verbatim c7blob (MdlxHeader.mk 0 0 1 174 0 0) (by decide) (by decide),
    by decide⟩
